import Mathlib

/-!
Verification of the core logic of the `HE_calls` labeling application
(`src/app.py`) against its specification.

The embedding below translates the pure decision logic of `app.py` into
Lean definitions:

* the six-column label record and the button toggle logic
  (`app.py` lines 26, 303-333);
* the auto-classification-on-leave rule (`app.py` lines 262-278);
* page-number extraction and document ordering
  (`app.py` lines 102-134);
* CSV serialization / parsing of the per-reviewer label file and the
  GitHub load/save result handling (`app.py` lines 29-99).

I/O (HTTP requests, the filesystem, pandas CSV text encoding) is
represented by explicit data: an HTTP response becomes a status code or
an exception marker, the manifest file becomes the list of
`(call_id, page)` matches its text yields, and a CSV file becomes its
structured rows (header handling and quoting are assumed faithful, cells
are strings).
-/

namespace HECalls

/-- The six label columns, `LABEL_COLS` in `app.py` line 26:
`["NLP", "WUDAP", "ETHICS", "ENVIRO", "OPERATIONS", "none"]`. -/
inductive LabelCol : Type
  | NLP
  | WUDAP
  | ETHICS
  | ENVIRO
  | OPERATIONS
  | none
  deriving DecidableEq, Fintype

/-- The list `LABEL_COLS` in its canonical order (`app.py` line 26). -/
def LABEL_COLS : List LabelCol :=
  [LabelCol.NLP, LabelCol.WUDAP, LabelCol.ETHICS, LabelCol.ENVIRO,
   LabelCol.OPERATIONS, LabelCol.none]

/-- The five substantive columns, `LABEL_COLS[:-1]` in `app.py` line 267. -/
def SUBSTANTIVE : List LabelCol :=
  [LabelCol.NLP, LabelCol.WUDAP, LabelCol.ETHICS, LabelCol.ENVIRO,
   LabelCol.OPERATIONS]

/-- A label record: the Python dict `{col: value for col in LABEL_COLS}`,
modelled as a total function from columns to string values (the dict
always carries all six keys; `dict.get(col, "")` is function
application). -/
def LabelRecord : Type := LabelCol → String

instance : DecidableEq LabelRecord :=
  inferInstanceAs (DecidableEq (LabelCol → String))

/-- The fresh record `{col: "" for col in LABEL_COLS}`
(`app.py` lines 265, 270, 304). -/
def emptyRecord : LabelRecord := fun _ => ""

/-- Assignment `record[l] = v` on a label record. -/
def updateRecord (r : LabelRecord) (l : LabelCol) (v : String) : LabelRecord :=
  fun c => if c = l then v else r c

/-- The record `{none: "yes", all other columns: ""}` produced at
`app.py` lines 270-271 and 321-322. -/
def noneOnlyRecord : LabelRecord := updateRecord emptyRecord LabelCol.none "yes"

/-- The toggle logic of a label button press, `app.py` lines 312-327:
deselect if the label is active; selecting `"none"` resets the record to
`noneOnlyRecord`; selecting a substantive label clears `"none"` (when it
is `"yes"`) and sets the label. -/
def toggle (r : LabelRecord) (label : LabelCol) : LabelRecord :=
  if r label = "yes" then
    updateRecord r label ""
  else if label = LabelCol.none then
    noneOnlyRecord
  else
    updateRecord (if r LabelCol.none = "yes" then updateRecord r LabelCol.none "" else r)
      label "yes"

/-- A sequence of button presses applied in order. -/
def applyToggles (r : LabelRecord) (ts : List LabelCol) : LabelRecord :=
  ts.foldl toggle r

/-- The list of columns whose value is `"yes"` (the `active_labels`
computation of `app.py` line 337). -/
def activeList (r : LabelRecord) : List LabelCol :=
  LABEL_COLS.filter (fun c => r c == "yes")

/-- The mutual-exclusion invariant that actually holds of the toggle
logic: whenever `"none"` is `"yes"`, no substantive label is `"yes"`. -/
def noneExclusive (r : LabelRecord) : Prop :=
  r LabelCol.none = "yes" → ∀ c ∈ SUBSTANTIVE, r c ≠ "yes"

instance (r : LabelRecord) : Decidable (noneExclusive r) := by
  unfold noneExclusive
  infer_instance

theorem mem_substantive_ne_none : ∀ c ∈ SUBSTANTIVE, c ≠ LabelCol.none := by
  decide

theorem toggle_noneExclusive (r : LabelRecord) (l : LabelCol)
    (h : noneExclusive r) : noneExclusive (toggle r l) := by
  intro hn c hc hcy
  have hcn : c ≠ LabelCol.none := mem_substantive_ne_none c hc
  unfold toggle at hn hcy
  by_cases hyl : r l = "yes"
  · rw [if_pos hyl] at hn hcy
    unfold updateRecord at hn hcy
    by_cases hnl : LabelCol.none = l
    · rw [if_pos hnl] at hn
      exact absurd hn (by decide)
    · rw [if_neg hnl] at hn
      by_cases hcl : c = l
      · rw [if_pos hcl] at hcy
        exact absurd hcy (by decide)
      · rw [if_neg hcl] at hcy
        exact h hn c hc hcy
  · rw [if_neg hyl] at hn hcy
    by_cases hln : l = LabelCol.none
    · rw [if_pos hln] at hcy
      unfold noneOnlyRecord updateRecord emptyRecord at hcy
      rw [if_neg hcn] at hcy
      exact absurd hcy (by decide)
    · rw [if_neg hln] at hn
      unfold updateRecord at hn
      have hnl2 : ¬ LabelCol.none = l := fun hh => hln hh.symm
      rw [if_neg hnl2] at hn
      by_cases hrn : r LabelCol.none = "yes"
      · rw [if_pos hrn] at hn
        rw [if_pos rfl] at hn
        exact absurd hn (by decide)
      · rw [if_neg hrn] at hn
        exact absurd hn hrn

/-- Claim C1 as stated is false: starting from the fresh empty record,
toggling `NLP` and then `WUDAP` (`app.py` lines 312-327) leaves BOTH
substantive labels at `"yes"`, so more than one of the six fields equals
`"yes"`. -/
theorem c1_counterexample_two_active :
    applyToggles emptyRecord [LabelCol.NLP, LabelCol.WUDAP] LabelCol.NLP = "yes" ∧
    applyToggles emptyRecord [LabelCol.NLP, LabelCol.WUDAP] LabelCol.WUDAP = "yes" ∧
    ¬ (activeList (applyToggles emptyRecord [LabelCol.NLP, LabelCol.WUDAP])).length ≤ 1 := by
  decide

/-- Claim C1, amended: the invariant the toggle logic actually maintains
is mutual exclusion between `"none"` and the substantive labels, not
"at most one of the six": for every record in which `"none" = "yes"`
implies no substantive label is `"yes"` (in particular the fresh empty
record), every sequence of toggles preserves that property; several
substantive labels may be `"yes"` simultaneously. -/
theorem c1_toggles_preserve_noneExclusive (r : LabelRecord) (ts : List LabelCol)
    (h : noneExclusive r) : noneExclusive (applyToggles r ts) := by
  induction ts generalizing r with
  | nil => exact h
  | cons t ts ih => exact ih (toggle r t) (toggle_noneExclusive r t h)

/-- Witness for C1's amended theorem at a concrete input: the empty
record satisfies the invariant, and so does the record after toggling
`NLP`, then `WUDAP`, then `none`. -/
theorem c1_witness :
    noneExclusive emptyRecord ∧
    noneExclusive (applyToggles emptyRecord
      [LabelCol.NLP, LabelCol.WUDAP, LabelCol.none]) :=
  ⟨by decide,
   c1_toggles_preserve_noneExclusive emptyRecord
     [LabelCol.NLP, LabelCol.WUDAP, LabelCol.none] (by decide)⟩

/-- Claim C3: toggling `"none"` when it is not active resets the record
to exactly `{none: "yes"}` with all five substantive fields empty,
whatever was `"yes"` before (`app.py` lines 317-322). -/
theorem c3_select_none_resets (r : LabelRecord) (h : r LabelCol.none ≠ "yes") :
    toggle r LabelCol.none = noneOnlyRecord ∧
    toggle r LabelCol.none LabelCol.none = "yes" ∧
    ∀ c ∈ SUBSTANTIVE, toggle r LabelCol.none c = "" := by
  have ht : toggle r LabelCol.none = noneOnlyRecord := by
    unfold toggle
    rw [if_neg h, if_pos rfl]
  refine ⟨ht, ?_, ?_⟩
  · rw [ht]
    decide
  · intro c hc
    rw [ht]
    revert hc
    unfold noneOnlyRecord updateRecord emptyRecord
    intro hc
    rw [if_neg (mem_substantive_ne_none c hc)]

/-- A concrete prior record with `ETHICS` and `OPERATIONS` active. -/
def recTwoActive : LabelRecord :=
  updateRecord (updateRecord emptyRecord LabelCol.ETHICS "yes")
    LabelCol.OPERATIONS "yes"

/-- Witness for C3 at a concrete input: toggling `"none"` on a record with
`ETHICS` and `OPERATIONS` active yields exactly `noneOnlyRecord`. -/
theorem c3_witness :
    recTwoActive LabelCol.none ≠ "yes" ∧
    (toggle recTwoActive LabelCol.none = noneOnlyRecord ∧
     toggle recTwoActive LabelCol.none LabelCol.none = "yes" ∧
     ∀ c ∈ SUBSTANTIVE, toggle recTwoActive LabelCol.none c = "") :=
  ⟨by decide, c3_select_none_resets recTwoActive (by decide)⟩

/-- A record in which both `"none"` and `NLP` are `"yes"` (expressible in
a loaded CSV file, though not reachable by toggles from the empty
record). -/
def badRecord : LabelRecord :=
  updateRecord (updateRecord emptyRecord LabelCol.none "yes") LabelCol.NLP "yes"

/-- Claim C4 as stated is false: on the prior record
`{none: "yes", NLP: "yes"}`, toggling the substantive label `NLP`
deselects it (`app.py` lines 314-316), so the result has `"none"` still
`"yes"` and `NLP` not `"yes"`. -/
theorem c4_counterexample_deselect :
    badRecord LabelCol.none = "yes" ∧
    ¬ (toggle badRecord LabelCol.NLP LabelCol.none = "" ∧
       toggle badRecord LabelCol.NLP LabelCol.NLP = "yes") := by
  decide

/-- Claim C4, amended: for every prior record in which `"none"` is
`"yes"` and the substantive label `l` is NOT already `"yes"` (so the
press is a selection), toggling `l` clears `"none"` and sets `l` to
`"yes"`; and for every prior record whatsoever, toggling a substantive
label never changes the other four substantive labels. -/
theorem c4_select_substantive (r : LabelRecord) (l : LabelCol)
    (hl : l ∈ SUBSTANTIVE) :
    (r LabelCol.none = "yes" → r l ≠ "yes" →
      toggle r l LabelCol.none = "" ∧ toggle r l l = "yes") ∧
    (∀ c ∈ SUBSTANTIVE, c ≠ l → toggle r l c = r c) := by
  have hln : l ≠ LabelCol.none := mem_substantive_ne_none l hl
  have hnl : ¬ LabelCol.none = l := fun hh => hln hh.symm
  constructor
  · intro hn hy
    unfold toggle updateRecord
    rw [if_neg hy, if_neg hln, if_pos hn]
    constructor
    · rw [if_neg hnl, if_pos rfl]
    · rw [if_pos rfl]
  · intro c hc hcl
    unfold toggle updateRecord
    by_cases hyl : r l = "yes"
    · rw [if_pos hyl, if_neg hcl]
    · rw [if_neg hyl, if_neg hln, if_neg hcl]
      by_cases hrn : r LabelCol.none = "yes"
      · rw [if_pos hrn, if_neg (mem_substantive_ne_none c hc)]
      · rw [if_neg hrn]

/-- Witness for C4's amended theorem at a concrete input: on
`{none: "yes"}`, toggling `WUDAP` clears `"none"`, sets `WUDAP`, and the
other substantive labels keep their values. -/
theorem c4_witness :
    LabelCol.WUDAP ∈ SUBSTANTIVE ∧
    noneOnlyRecord LabelCol.none = "yes" ∧
    noneOnlyRecord LabelCol.WUDAP ≠ "yes" ∧
    (toggle noneOnlyRecord LabelCol.WUDAP LabelCol.none = "" ∧
     toggle noneOnlyRecord LabelCol.WUDAP LabelCol.WUDAP = "yes") ∧
    (∀ c ∈ SUBSTANTIVE, c ≠ LabelCol.WUDAP →
       toggle noneOnlyRecord LabelCol.WUDAP c = noneOnlyRecord c) :=
  ⟨by decide, by decide, by decide,
   (c4_select_substantive noneOnlyRecord LabelCol.WUDAP (by decide)).1
     (by decide) (by decide),
   (c4_select_substantive noneOnlyRecord LabelCol.WUDAP (by decide)).2⟩

/-- Claim C10: toggling a label that is currently `"yes"` clears exactly
that one field and nothing else (`app.py` lines 314-316); deselecting
`"none"` on the record a `"none"` selection produces (`noneOnlyRecord`)
yields the record with zero active labels — substantive labels cleared by
the earlier `"none"` selection are not restored. -/
theorem c10_deselect :
    (∀ (r : LabelRecord) (l : LabelCol), r l = "yes" →
      toggle r l l = "" ∧ ∀ c, c ≠ l → toggle r l c = r c) ∧
    toggle noneOnlyRecord LabelCol.none = emptyRecord ∧
    activeList (toggle noneOnlyRecord LabelCol.none) = [] := by
  refine ⟨?_, by decide, by decide⟩
  intro r l hy
  unfold toggle updateRecord
  rw [if_pos hy]
  constructor
  · rw [if_pos rfl]
  · intro c hcl
    rw [if_neg hcl]

/-- Witness for C10 at a concrete input: deselecting `ETHICS` on
`recTwoActive` clears it and leaves `OPERATIONS` untouched. -/
theorem c10_witness :
    recTwoActive LabelCol.ETHICS = "yes" ∧
    (toggle recTwoActive LabelCol.ETHICS LabelCol.ETHICS = "" ∧
     ∀ c, c ≠ LabelCol.ETHICS →
       toggle recTwoActive LabelCol.ETHICS c = recTwoActive c) :=
  ⟨by decide, c10_deselect.1 recTwoActive LabelCol.ETHICS (by decide)⟩

/-- A label mapping held in memory: `st.session_state.labels_dict`,
modelled as a partial map from call id to record (`dict.get(k, default)`
is `(d k).getD default`). -/
def LabelDict : Type := String → Option LabelRecord

/-- `labels_dict.get(k, {col: "" for col in LABEL_COLS})`
(`app.py` lines 265, 304). -/
def dictGet (d : LabelDict) (k : String) : LabelRecord :=
  (d k).getD emptyRecord

/-- `labels_dict[k] = v` (`app.py` lines 272, 330). -/
def dictSet (d : LabelDict) (k : String) (v : LabelRecord) : LabelDict :=
  fun k2 => if k2 = k then some v else d k2

/-- `any(prev_labels.get(col) == "yes" for col in LABEL_COLS[:-1])`
(`app.py` line 267). -/
def has_labels (r : LabelRecord) : Bool :=
  SUBSTANTIVE.any (fun c => r c == "yes")

/-- The session-scoped review state: `labels_dict`, `viewed_calls` and
`last_call_id` of `app.py` lines 205-210 (`viewed_calls` is a set; only
membership matters below). -/
structure SessionState : Type where
  labels_dict : LabelDict
  viewed : List String
  last_call_id : Option String

/-- One render of the current document `call_id`, `app.py` lines
262-278: if the previously displayed call is truthy (`if
st.session_state.last_call_id` — a non-empty string), differs from
`call_id` and is in `viewed_calls`, and none of its five substantive
labels is `"yes"`, its record is overwritten to `noneOnlyRecord` and the
whole mapping is saved; then `call_id` is marked viewed and becomes
`last_call_id`. The second component is the mapping passed to
`save_labels_to_github`, if that call happened. -/
def displayStep (s : SessionState) (call_id : String) :
    SessionState × Option LabelDict :=
  let auto : LabelDict × Option LabelDict :=
    match s.last_call_id with
    | Option.none => (s.labels_dict, Option.none)
    | Option.some last =>
      if last ≠ "" ∧ last ≠ call_id ∧ last ∈ s.viewed then
        if has_labels (dictGet s.labels_dict last) then
          (s.labels_dict, Option.none)
        else
          (dictSet s.labels_dict last noneOnlyRecord,
           some (dictSet s.labels_dict last noneOnlyRecord))
      else (s.labels_dict, Option.none)
  ({ labels_dict := auto.1,
     viewed := s.viewed.insert call_id,
     last_call_id := some call_id }, auto.2)

/-- Claim C2: when the displayed document changes from `A` (truthy, in
the viewed set) to `B ≠ A`: if no substantive label of `A`'s record is
`"yes"`, `A`'s stored record becomes exactly `{none: "yes"}` and the
updated mapping is saved immediately; if some substantive label is
`"yes"`, the mapping is left completely unchanged and nothing is saved
(`app.py` lines 262-274). -/
theorem c2_auto_classify (s : SessionState) (A B : String)
    (hA : s.last_call_id = some A) (hne : A ≠ "") (hAB : A ≠ B)
    (hv : A ∈ s.viewed) :
    (has_labels (dictGet s.labels_dict A) = false →
      (displayStep s B).1.labels_dict A = some noneOnlyRecord ∧
      (displayStep s B).2 = some (displayStep s B).1.labels_dict) ∧
    (has_labels (dictGet s.labels_dict A) = true →
      (displayStep s B).1.labels_dict = s.labels_dict ∧
      (displayStep s B).2 = Option.none) := by
  have hcond : A ≠ "" ∧ A ≠ B ∧ A ∈ s.viewed := ⟨hne, hAB, hv⟩
  constructor
  · intro hno
    simp only [displayStep, hA, if_pos hcond, hno, Bool.false_eq_true,
      if_false]
    constructor
    · unfold dictSet
      rw [if_pos rfl]
    · trivial
  · intro hyes
    simp only [displayStep, hA, if_pos hcond, hyes, if_true]
    exact ⟨trivial, trivial⟩

/-- A concrete session: document `"a"` has been displayed and never
labeled. -/
def exampleSession : SessionState :=
  { labels_dict := fun _ => Option.none,
    viewed := ["a"],
    last_call_id := some "a" }

/-- Witness for C2 at a concrete input: navigating from unlabeled `"a"`
to `"b"` overwrites `"a"`'s record with `{none: "yes"}` and saves the
updated mapping. -/
theorem c2_witness :
    exampleSession.last_call_id = some "a" ∧
    "a" ≠ "" ∧ "a" ≠ "b" ∧ "a" ∈ exampleSession.viewed ∧
    has_labels (dictGet exampleSession.labels_dict "a") = false ∧
    (displayStep exampleSession "b").1.labels_dict "a" = some noneOnlyRecord ∧
    (displayStep exampleSession "b").2 =
      some (displayStep exampleSession "b").1.labels_dict := by
  refine ⟨rfl, by decide, by decide, by decide, by decide, ?_, ?_⟩
  · exact ((c2_auto_classify exampleSession "a" "b" rfl (by decide) (by decide)
      (by decide)).1 (by decide)).1
  · exact ((c2_auto_classify exampleSession "a" "b" rfl (by decide) (by decide)
      (by decide)).1 (by decide)).2

/-- Outcome of the `requests.put` call inside `save_labels_to_github`
(`app.py` line 91): either the request raised an exception, or it
returned a response with the given status code. -/
inductive PutOutcome : Type
  | exn : PutOutcome
  | status : Nat → PutOutcome

/-- The result handling of `save_labels_to_github`, `app.py` lines
90-99: a status in `[201, 200]` returns `True`; any other status returns
`False` (after `st.error`); an exception is caught and returns `False`
(after `st.error`). The function never raises, which the `Bool` return
type of this total function records. -/
def save_result (put : PutOutcome) : Bool :=
  match put with
  | PutOutcome.status code => code == 201 || code == 200
  | PutOutcome.exn => false

/-- The label-button handler of `app.py` lines 303-333: read the current
record, toggle the pressed label, write the new record into
`labels_dict` (line 330) and then call `save_labels_to_github`
(line 331). The returned `Bool` is the save call's result; note the
mapping is updated BEFORE saving and is not touched afterwards,
whatever the save returns. -/
def toggleStep (s : SessionState) (call_id : String) (label : LabelCol)
    (put : PutOutcome) : SessionState × Bool :=
  ({ s with
     labels_dict :=
       dictSet s.labels_dict call_id
         (toggle (dictGet s.labels_dict call_id) label) },
   save_result put)

/-- Claim C8: a remote write never raises to the caller (the outcome is
always a `Bool`): save succeeds exactly on status 200 or 201, fails on
every other status and on every exception, and the in-memory label
mapping after a toggle-and-save is the same whatever the save outcome
was — a failed save rolls nothing back (`app.py` lines 90-99,
329-333). -/
theorem c8_save_failure_handling :
    (∀ code : Nat,
       save_result (PutOutcome.status code) = true ↔ (code = 200 ∨ code = 201)) ∧
    save_result PutOutcome.exn = false ∧
    (∀ (s : SessionState) (call_id : String) (label : LabelCol)
       (put1 put2 : PutOutcome),
       (toggleStep s call_id label put1).1 = (toggleStep s call_id label put2).1) := by
  refine ⟨?_, rfl, ?_⟩
  · intro code
    unfold save_result
    simp only [Bool.or_eq_true, beq_iff_eq]
    constructor
    · rintro (h1 | h1)
      · exact Or.inr h1
      · exact Or.inl h1
    · rintro (h1 | h1)
      · exact Or.inr h1
      · exact Or.inl h1
  · intro s call_id label put1 put2
    rfl

/-- Outcome of the `requests.get` plus `pd.read_csv` in
`load_labels_from_github` (`app.py` lines 37-45): the request raised, or
it returned a status code together with what parsing the body would
yield (the parse is only attempted on status 200; `Except.error ()`
stands for a `read_csv`/iteration exception). A CSV row is its `CallID`
cell plus the six label cells in `LABEL_COLS` order. -/
inductive FetchOutcome : Type
  | exn : FetchOutcome
  | resp : Nat → Except Unit (List (String × List String)) → FetchOutcome

/-- Position of each label column in a CSV row (the columns written by
`save_labels_to_github`, `app.py` lines 60-63). -/
def colIndex : LabelCol → Nat
  | LabelCol.NLP => 0
  | LabelCol.WUDAP => 1
  | LabelCol.ETHICS => 2
  | LabelCol.ENVIRO => 3
  | LabelCol.OPERATIONS => 4
  | LabelCol.none => 5

/-- `{col: row.get(col, "") for col in LABEL_COLS}` (`app.py` line 45):
rebuild a record from the six label cells of a row. -/
def recordOfVals (vals : List String) : LabelRecord :=
  fun c => (vals.get? (colIndex c)).getD ""

/-- Python dict assignment `result[call_id] = v` on an association list:
replace the entry in place if the key is present, else append. -/
def dinsert (acc : List (String × LabelRecord)) (k : String)
    (v : LabelRecord) : List (String × LabelRecord) :=
  if acc.any (fun p => p.1 == k) then
    acc.map (fun p => if p.1 == k then (k, v) else p)
  else acc ++ [(k, v)]

/-- One iteration of the row loop of `load_labels_from_github`,
`app.py` lines 42-45: if the `CallID` cell is truthy (a non-empty
string), store the rebuilt record under that key. -/
def loadRow (acc : List (String × LabelRecord)) (row : String × List String) :
    List (String × LabelRecord) :=
  if row.1 ≠ "" then dinsert acc row.1 (recordOfVals row.2) else acc

/-- The row loop of `load_labels_from_github`, `app.py` lines 41-46. -/
def load_rows (rows : List (String × List String)) :
    List (String × LabelRecord) :=
  rows.foldl loadRow []

/-- `load_labels_from_github`, `app.py` lines 29-50: on status 200 the
body is parsed into the result mapping; any other status falls through
to `return {}` with no warning; an exception anywhere in the `try` block
(request or parse) is caught, warned about, and yields `{}`. The `Bool`
component records whether `st.warning` was called. -/
def load_labels_from_github (fetch : FetchOutcome) :
    List (String × LabelRecord) × Bool :=
  match fetch with
  | FetchOutcome.exn => ([], true)
  | FetchOutcome.resp status parse =>
    if status = 200 then
      match parse with
      | Except.ok rows => (load_rows rows, false)
      | Except.error _ => ([], true)
    else ([], false)

/-- Claim C9 as stated is false: a non-exceptional 404 fetch (file not
found) returns the empty mapping but does NOT log a warning — `app.py`
lines 38-50 fall through to `return {}` without calling `st.warning`,
which runs only in the `except` branch. -/
theorem c9_counterexample_404_silent :
    load_labels_from_github (FetchOutcome.resp 404 (Except.ok [])) = ([], false) := by
  rfl

/-- Claim C9, amended: remote load is never fatal (it is a total
function into mapping × warning flag), and for every non-200 status it
returns the empty mapping silently, while every exception during fetch
or parse returns the empty mapping with a warning. -/
theorem c9_load_never_fatal :
    (∀ (status : Nat) (parse : Except Unit (List (String × List String))),
       status ≠ 200 →
       load_labels_from_github (FetchOutcome.resp status parse) = ([], false)) ∧
    load_labels_from_github FetchOutcome.exn = ([], true) ∧
    load_labels_from_github (FetchOutcome.resp 200 (Except.error ())) = ([], true) := by
  refine ⟨?_, rfl, rfl⟩
  intro status parse hs
  simp only [load_labels_from_github]
  rw [if_neg hs]

/-- Witness for C9's amended theorem at a concrete input: a 404 response
loads as the empty mapping with no warning. -/
theorem c9_witness :
    (404 : Nat) ≠ 200 ∧
    load_labels_from_github (FetchOutcome.resp 404 (Except.ok [("a", [])])) =
      ([], false) :=
  ⟨by decide,
   c9_load_never_fatal.1 404 (Except.ok [("a", [])]) (by decide)⟩

/-- Python string comparison: lexicographic by code point, which is the
order on the underlying character list. (Lean's built-in `String` order
is the same relation, but its decision procedure does not reduce in the
kernel, so the embedding works with `String.data` directly.) -/
def strLe (a b : String) : Prop := a.data ≤ b.data

instance : DecidableRel strLe :=
  fun a b => inferInstanceAs (Decidable (a.data ≤ b.data))

instance : IsTotal String strLe := ⟨fun a b => le_total a.data b.data⟩

instance : IsTrans String strLe := ⟨fun _ _ _ h1 h2 => le_trans h1 h2⟩

/-- The order used by `sorted(labels_dict.items())` (`app.py` line 59):
with distinct keys, Python's tuple comparison is comparison of the
keys. -/
def itemLe (p q : String × LabelRecord) : Prop := strLe p.1 q.1

instance : DecidableRel itemLe :=
  fun p q => inferInstanceAs (Decidable (strLe p.1 q.1))

instance : IsTotal (String × LabelRecord) itemLe :=
  ⟨fun p q => le_total p.1.data q.1.data⟩

instance : IsTrans (String × LabelRecord) itemLe :=
  ⟨fun _ _ _ h1 h2 => le_trans h1 h2⟩

/-- The row serialization of `save_labels_to_github`, `app.py` lines
58-66: one row per mapping entry, in ascending key order, `CallID`
first and then the six label cells in `LABEL_COLS` order
(`label_dict.get(col, "")` is application of the total record). -/
def serializeRows (labels : List (String × LabelRecord)) :
    List (String × List String) :=
  (List.insertionSort itemLe labels).map (fun p => (p.1, LABEL_COLS.map p.2))

/-- Dictionary lookup on the association lists built by `load_rows`. -/
def lookupAssoc (l : List (String × LabelRecord)) (k : String) :
    Option LabelRecord :=
  (l.find? (fun p => p.1 == k)).map (fun p => p.2)

theorem recordOfVals_map (r : LabelRecord) :
    recordOfVals (LABEL_COLS.map r) = r := by
  funext c
  cases c <;> rfl

theorem lookup_map_replace_ne (acc : List (String × LabelRecord))
    (k' : String) (v : LabelRecord) (k : String) (hk : ¬ k' = k) :
    lookupAssoc (acc.map (fun p => if p.1 == k' then (k', v) else p)) k =
      lookupAssoc acc k := by
  induction acc with
  | nil => rfl
  | cons a t ih =>
    unfold lookupAssoc at *
    simp only [List.map_cons]
    by_cases ha : (a.1 == k') = true
    · rw [if_pos ha]
      have h1 : List.find? (fun p => p.1 == k)
          ((k', v) :: t.map (fun p => if p.1 == k' then (k', v) else p)) =
          List.find? (fun p => p.1 == k)
            (t.map (fun p => if p.1 == k' then (k', v) else p)) :=
        List.find?_cons_of_neg _ (by simpa using hk)
      have h2 : List.find? (fun p => p.1 == k) (a :: t) =
          List.find? (fun p => p.1 == k) t :=
        List.find?_cons_of_neg _
          (by rw [beq_iff_eq.mp ha]; simpa using hk)
      rw [h1, h2]
      exact ih
    · rw [if_neg ha]
      by_cases hak : (a.1 == k) = true
      · have h1 : List.find? (fun p => p.1 == k)
            (a :: t.map (fun p => if p.1 == k' then (k', v) else p)) = some a :=
          List.find?_cons_of_pos _ hak
        have h2 : List.find? (fun p => p.1 == k) (a :: t) = some a :=
          List.find?_cons_of_pos _ hak
        rw [h1, h2]
      · have h1 : List.find? (fun p => p.1 == k)
            (a :: t.map (fun p => if p.1 == k' then (k', v) else p)) =
            List.find? (fun p => p.1 == k)
              (t.map (fun p => if p.1 == k' then (k', v) else p)) :=
          List.find?_cons_of_neg _ hak
        have h2 : List.find? (fun p => p.1 == k) (a :: t) =
            List.find? (fun p => p.1 == k) t :=
          List.find?_cons_of_neg _ hak
        rw [h1, h2]
        exact ih

theorem lookup_map_replace_eq (acc : List (String × LabelRecord))
    (k' : String) (v : LabelRecord)
    (hmem : acc.any (fun p => p.1 == k') = true) :
    lookupAssoc (acc.map (fun p => if p.1 == k' then (k', v) else p)) k' =
      some v := by
  induction acc with
  | nil => simp at hmem
  | cons a t ih =>
    unfold lookupAssoc at *
    simp only [List.map_cons]
    by_cases ha : (a.1 == k') = true
    · rw [if_pos ha]
      have h1 : List.find? (fun p => p.1 == k')
          ((k', v) :: t.map (fun p => if p.1 == k' then (k', v) else p)) =
          some (k', v) :=
        List.find?_cons_of_pos _ (beq_self_eq_true k')
      rw [h1]
      rfl
    · rw [if_neg ha]
      have h1 : List.find? (fun p => p.1 == k')
          (a :: t.map (fun p => if p.1 == k' then (k', v) else p)) =
          List.find? (fun p => p.1 == k')
            (t.map (fun p => if p.1 == k' then (k', v) else p)) :=
        List.find?_cons_of_neg _ ha
      rw [h1]
      rw [List.any_cons] at hmem
      rcases Bool.or_eq_true_iff.mp hmem with h2 | h2
      · exact absurd h2 ha
      · exact ih h2

theorem lookup_dinsert (acc : List (String × LabelRecord)) (k' : String)
    (v : LabelRecord) (k : String) :
    lookupAssoc (dinsert acc k' v) k =
      if k = k' then some v else lookupAssoc acc k := by
  unfold dinsert
  by_cases hmem : acc.any (fun p => p.1 == k') = true
  · rw [if_pos hmem]
    by_cases hk : k = k'
    · rw [if_pos hk, hk]
      exact lookup_map_replace_eq acc k' v hmem
    · rw [if_neg hk]
      exact lookup_map_replace_ne acc k' v k (fun hh => hk hh.symm)
  · rw [if_neg hmem]
    unfold lookupAssoc
    rw [List.find?_append]
    have hnone : acc.find? (fun p => p.1 == k') = Option.none := by
      rw [List.find?_eq_none]
      intro x hx hpx
      exact hmem (List.any_eq_true.mpr ⟨x, hx, hpx⟩)
    by_cases hk : k = k'
    · subst hk
      rw [hnone, if_pos rfl]
      have hone : List.find? (fun p => p.1 == k) [(k, v)] = some (k, v) :=
        List.find?_cons_of_pos _ (beq_self_eq_true k)
      rw [Option.none_or, hone]
      rfl
    · have hone : List.find? (fun p => p.1 == k) [(k', v)] = Option.none := by
        rw [List.find?_eq_none]
        intro x hx hpx
        rcases List.mem_singleton.mp hx with rfl
        exact hk (beq_iff_eq.mp hpx).symm
      rw [hone, Option.or_none, if_neg hk]

theorem key_unique {l : List (String × LabelRecord)}
    (hnd : (l.map Prod.fst).Nodup) {x y : String × LabelRecord}
    (hx : x ∈ l) (hy : y ∈ l) (hk : x.1 = y.1) : x = y := by
  induction l with
  | nil => exact absurd hx (List.not_mem_nil x)
  | cons a t ih =>
    rw [List.map_cons, List.nodup_cons] at hnd
    rcases List.mem_cons.mp hx with rfl | hx2
    · rcases List.mem_cons.mp hy with rfl | hy2
      · rfl
      · exact absurd (hk ▸ List.mem_map_of_mem Prod.fst hy2) hnd.1
    · rcases List.mem_cons.mp hy with rfl | hy2
      · exact absurd (hk ▸ List.mem_map_of_mem Prod.fst hx2) hnd.1
      · exact ih hnd.2 hx2 hy2

theorem find_key_perm (l1 l2 : List (String × LabelRecord))
    (h : l1.Perm l2) (hnd : (l1.map Prod.fst).Nodup) (k : String) :
    l1.find? (fun p => p.1 == k) = l2.find? (fun p => p.1 == k) := by
  cases h1 : l1.find? (fun p => p.1 == k) with
  | none =>
    symm
    rw [List.find?_eq_none] at h1 ⊢
    intro x hx
    exact h1 x (h.mem_iff.mpr hx)
  | some x =>
    have hx1 : x ∈ l1 := List.mem_of_find?_eq_some h1
    have hpx := List.find?_some h1
    cases h2 : l2.find? (fun p => p.1 == k) with
    | none =>
      rw [List.find?_eq_none] at h2
      exact absurd hpx (h2 x (h.mem_iff.mp hx1))
    | some y =>
      have hy1 : y ∈ l1 := h.mem_iff.mpr (List.mem_of_find?_eq_some h2)
      have hpy := List.find?_some h2
      have : x = y :=
        key_unique hnd hx1 hy1
          ((beq_iff_eq.mp hpx).trans (beq_iff_eq.mp hpy).symm)
      rw [this]

theorem load_rows_empty_key (rows : List (String × List String))
    (acc : List (String × LabelRecord)) :
    lookupAssoc (rows.foldl loadRow acc) "" = lookupAssoc acc "" := by
  induction rows generalizing acc with
  | nil => rfl
  | cons row t ih =>
    rw [List.foldl_cons]
    rw [ih]
    unfold loadRow
    by_cases hr : row.1 = ""
    · rw [if_neg (fun hh => hh hr)]
    · rw [if_pos hr]
      rw [lookup_dinsert]
      rw [if_neg (fun hh => hr hh.symm)]

theorem load_rows_go (rows : List (String × List String))
    (acc : List (String × LabelRecord)) (k : String) (hk : k ≠ "")
    (hnd : (rows.map Prod.fst).Nodup) :
    lookupAssoc (rows.foldl loadRow acc) k =
      match rows.find? (fun p => p.1 == k) with
      | some p => some (recordOfVals p.2)
      | Option.none => lookupAssoc acc k := by
  induction rows generalizing acc with
  | nil => rfl
  | cons row t ih =>
    rw [List.map_cons, List.nodup_cons] at hnd
    rw [List.foldl_cons]
    by_cases hr : row.1 = k
    · have hrne : row.1 ≠ "" := hr ▸ hk
      have hstep : loadRow acc row = dinsert acc row.1 (recordOfVals row.2) := by
        unfold loadRow
        rw [if_pos hrne]
      rw [hstep]
      have hfc : List.find? (fun p => p.1 == k) (row :: t) = some row :=
        List.find?_cons_of_pos _ (beq_iff_eq.mpr hr)
      rw [hfc]
      have htnone : t.find? (fun p => p.1 == k) = Option.none := by
        rw [List.find?_eq_none]
        intro x hx hpx
        exact hnd.1 (hr ▸ beq_iff_eq.mp hpx ▸ List.mem_map_of_mem Prod.fst hx)
      rw [ih _ hnd.2, htnone, lookup_dinsert, hr, if_pos rfl]
    · have hfc : List.find? (fun p => p.1 == k) (row :: t) =
          List.find? (fun p => p.1 == k) t :=
        List.find?_cons_of_neg _ (by simpa using hr)
      rw [hfc]
      rw [ih _ hnd.2]
      have hacc : lookupAssoc (loadRow acc row) k = lookupAssoc acc k := by
        unfold loadRow
        by_cases hre : row.1 = ""
        · rw [if_neg (fun hh => hh hre)]
        · rw [if_pos hre, lookup_dinsert, if_neg (fun hh => hr hh.symm)]
      cases t.find? (fun p => p.1 == k) with
      | none => exact hacc
      | some p => rfl

/-- Claim C7 as stated is false: a mapping holding a record under the
empty-string key does not survive the round trip — the row loop of
`load_labels_from_github` drops rows whose `CallID` is falsy
(`app.py` line 44). -/
theorem c7_counterexample_empty_key :
    lookupAssoc [("", updateRecord emptyRecord LabelCol.NLP "yes")] "" =
      some (updateRecord emptyRecord LabelCol.NLP "yes") ∧
    lookupAssoc
      (load_rows (serializeRows [("", updateRecord emptyRecord LabelCol.NLP "yes")]))
      "" = Option.none := by
  constructor
  · rfl
  · rw [serializeRows]
    rw [load_rows, load_rows_empty_key]
    rfl

/-- Claim C7, amended: for every label mapping whose document keys are
distinct (it is a dict) and non-empty, serializing with
`save_labels_to_github`'s row construction and re-parsing with
`load_labels_from_github`'s row loop reproduces, for every document key,
the same stored record — in particular the same set of
`(doc_key, active_labels)` pairs. Records keyed by the empty string are
dropped on reload. -/
theorem c7_roundtrip (labels : List (String × LabelRecord))
    (hnd : (labels.map Prod.fst).Nodup) (hne : ∀ p ∈ labels, p.1 ≠ "") :
    ∀ k : String,
      lookupAssoc (load_rows (serializeRows labels)) k = lookupAssoc labels k ∧
      Option.map activeList (lookupAssoc (load_rows (serializeRows labels)) k) =
        Option.map activeList (lookupAssoc labels k) := by
  have hperm : (List.insertionSort itemLe labels).Perm labels :=
    List.perm_insertionSort itemLe labels
  have hsnd : ((List.insertionSort itemLe labels).map Prod.fst).Nodup :=
    ((hperm.map Prod.fst).nodup_iff).mpr hnd
  have hmain : ∀ k : String,
      lookupAssoc (load_rows (serializeRows labels)) k = lookupAssoc labels k := by
    intro k
    by_cases hk : k = ""
    · subst hk
      rw [load_rows, load_rows_empty_key]
      have : labels.find? (fun p => p.1 == "") = Option.none := by
        rw [List.find?_eq_none]
        intro x hx hpx
        exact hne x hx (beq_iff_eq.mp hpx)
      unfold lookupAssoc
      rw [this]
      rfl
    · have hrownd : ((serializeRows labels).map Prod.fst).Nodup := by
        unfold serializeRows
        rw [List.map_map]
        exact hsnd
      rw [load_rows, load_rows_go (serializeRows labels) [] k hk hrownd]
      have hfind : (serializeRows labels).find? (fun p => p.1 == k) =
          Option.map (fun p => (p.1, LABEL_COLS.map p.2))
            ((List.insertionSort itemLe labels).find? (fun p => p.1 == k)) := by
        unfold serializeRows
        exact List.find?_map _ _
      rw [hfind, find_key_perm _ _ hperm hsnd k]
      unfold lookupAssoc
      cases labels.find? (fun p => p.1 == k) with
      | none => rfl
      | some p =>
        show some (recordOfVals (LABEL_COLS.map p.2)) = some p.2
        rw [recordOfVals_map]
  intro k
  exact ⟨hmain k, by rw [hmain k]⟩

/-- A concrete two-document mapping with distinct non-empty keys. -/
def exLabels : List (String × LabelRecord) :=
  [("b", recTwoActive), ("a", noneOnlyRecord)]

/-- Witness for C7's amended theorem at a concrete input. -/
theorem c7_witness :
    (exLabels.map Prod.fst).Nodup ∧ (∀ p ∈ exLabels, p.1 ≠ "") ∧
    lookupAssoc (load_rows (serializeRows exLabels)) "b" = lookupAssoc exLabels "b" :=
  ⟨by decide, by decide, (c7_roundtrip exLabels (by decide) (by decide) "b").1⟩

/-- The sentinel page number `10**9` returned when the page-number regex
finds no match or the manifest is unreadable (`app.py` line 115). -/
def SENTINEL : Nat := 10 ^ 9

/-- The manifest text is modelled by the list of
`(call_id, page_number)` associations its lines yield; `re.search`
returns the first match for the queried id, hence `find?`
(`app.py` lines 102-112). -/
def extract_page_number (manifest : List (String × Nat)) (call_id : String) :
    Nat :=
  match manifest.find? (fun p => p.1 == call_id) with
  | some p => p.2
  | Option.none => SENTINEL

/-- Python `str.replace` restricted to the pattern `".txt"` and empty
replacement, on the character list: scan left to right, removing every
non-overlapping occurrence. (Lean's built-in `String.replace` is the
same operation but its byte-position implementation does not reduce in
the kernel.) -/
def stripTxtChars : List Char → List Char
  | '.' :: 't' :: 'x' :: 't' :: rest => stripTxtChars rest
  | c :: rest => c :: stripTxtChars rest
  | [] => []

/-- `fname.replace(".txt", "")` (`app.py` lines 130, 260). -/
def stripTxt (fname : String) : String := ⟨stripTxtChars fname.data⟩

/-- `get_page_sort_key` (`app.py` lines 128-132): the pair
`(page_number, fname)`. -/
def get_page_sort_key (manifest : List (String × Nat)) (fname : String) :
    Nat × String :=
  (extract_page_number manifest (stripTxt fname), fname)

/-- Python tuple comparison on `(int, str)` pairs: lexicographic. -/
def tupleLe (a b : Nat × String) : Prop :=
  a.1 < b.1 ∨ (a.1 = b.1 ∧ strLe a.2 b.2)

instance : DecidableRel tupleLe := fun a b => by
  unfold tupleLe
  infer_instance

theorem tupleLe_total (a b : Nat × String) : tupleLe a b ∨ tupleLe b a := by
  unfold tupleLe
  rcases Nat.lt_trichotomy a.1 b.1 with h | h | h
  · exact Or.inl (Or.inl h)
  · rcases total_of (fun x y : List Char => x ≤ y) a.2.data b.2.data with h2 | h2
    · exact Or.inl (Or.inr ⟨h, h2⟩)
    · exact Or.inr (Or.inr ⟨h.symm, h2⟩)
  · exact Or.inr (Or.inl h)

theorem tupleLe_trans (a b c : Nat × String) (h1 : tupleLe a b)
    (h2 : tupleLe b c) : tupleLe a c := by
  unfold tupleLe at *
  rcases h1 with h1 | h1
  · rcases h2 with h2 | h2
    · exact Or.inl (Nat.lt_trans h1 h2)
    · exact Or.inl (h2.1 ▸ h1)
  · rcases h2 with h2 | h2
    · exact Or.inl (h1.1 ▸ h2)
    · exact Or.inr ⟨h1.1.trans h2.1, le_trans h1.2 h2.2⟩

/-- The comparison induced on filenames by `get_page_sort_key` under a
given manifest. -/
def manifestLe (manifest : List (String × Nat)) (a b : String) : Prop :=
  tupleLe (get_page_sort_key manifest a) (get_page_sort_key manifest b)

instance (m : List (String × Nat)) : DecidableRel (manifestLe m) :=
  fun a b => by
    unfold manifestLe
    infer_instance

instance (m : List (String × Nat)) : IsTotal String (manifestLe m) :=
  ⟨fun x y => tupleLe_total (get_page_sort_key m x) (get_page_sort_key m y)⟩

instance (m : List (String × Nat)) : IsTrans String (manifestLe m) :=
  ⟨fun _ _ _ h1 h2 => tupleLe_trans _ _ _ h1 h2⟩

/-- `get_sorted_files` (`app.py` lines 118-134): if the cluster's divide
file does not exist, the `*.txt` files are sorted alphabetically;
otherwise they are sorted by `(page_number, fname)`. Within a single
cluster directory every path shares the same directory prefix, so files
are modelled by filename; Python's `sorted` is modelled by insertion
sort (both are stable, and the properties proved below do not depend on
stability). -/
def get_sorted_files (manifest_exists : Bool)
    (manifest : List (String × Nat)) (txt_files : List String) :
    List String :=
  if manifest_exists = false then List.insertionSort strLe txt_files
  else List.insertionSort (manifestLe manifest) txt_files

/-- The page number the manifest holds for a document file, if the
document appears in the manifest at all. -/
def manifestPage (m : List (String × Nat)) (fname : String) : Option Nat :=
  (m.find? (fun p => p.1 == stripTxt fname)).map (fun p => p.2)

theorem extract_eq_manifestPage (m : List (String × Nat)) (f : String) :
    extract_page_number m (stripTxt f) = (manifestPage m f).getD SENTINEL := by
  unfold extract_page_number manifestPage
  cases m.find? (fun p => p.1 == stripTxt f) <;> rfl

/-- Claim C6: with no manifest file, the resolver returns the cluster's
files sorted alphabetically (code-point order, as Python compares
strings); in particular a cluster holding only `b.txt` and `a.txt`
resolves to the keys `["a", "b"]` in that order. -/
theorem c6_no_manifest_alphabetical :
    (∀ (m : List (String × Nat)) (files : List String),
       List.Sorted strLe (get_sorted_files false m files) ∧
       (get_sorted_files false m files).Perm files) ∧
    get_sorted_files false [] ["b.txt", "a.txt"] = ["a.txt", "b.txt"] ∧
    (get_sorted_files false [] ["b.txt", "a.txt"]).map stripTxt = ["a", "b"] := by
  refine ⟨?_, by decide, by decide⟩
  intro m files
  exact ⟨List.sorted_insertionSort strLe files,
         List.perm_insertionSort strLe files⟩

/-- Claim C5 as stated is false: a manifest line can carry the page
number `10**9`, which coincides with the sentinel; then the absent
document `a.txt` sorts BEFORE the present document `b.txt` (both share
the page key `10^9` and the filename tie-break puts `a.txt` first). -/
theorem c5_counterexample_sentinel_tie :
    manifestPage [("b", SENTINEL)] "a.txt" = Option.none ∧
    manifestPage [("b", SENTINEL)] "b.txt" = some SENTINEL ∧
    get_sorted_files true [("b", SENTINEL)] ["b.txt", "a.txt"] =
      ["a.txt", "b.txt"] := by
  decide

/-- Claim C5, amended: with a manifest present, the resolver sorts
ascending by the tuple (extracted page number, filename); a document
absent from the manifest gets the sentinel page `10**9` and therefore
sorts after every document present in the manifest WITH A PAGE NUMBER
BELOW THE SENTINEL (a present document whose listed page number is at
least `10**9` ties with or follows the absent ones); absent documents
are ordered alphabetically among themselves. -/
theorem c5_manifest_sort (m : List (String × Nat)) (files : List String) :
    List.Sorted (manifestLe m) (get_sorted_files true m files) ∧
    (get_sorted_files true m files).Perm files ∧
    (∀ i j : Fin (get_sorted_files true m files).length, i < j →
       manifestPage m ((get_sorted_files true m files).get i) = Option.none →
       ∀ p : Nat,
         manifestPage m ((get_sorted_files true m files).get j) = some p →
         SENTINEL ≤ p) ∧
    (∀ i j : Fin (get_sorted_files true m files).length, i < j →
       manifestPage m ((get_sorted_files true m files).get i) = Option.none →
       manifestPage m ((get_sorted_files true m files).get j) = Option.none →
       strLe ((get_sorted_files true m files).get i)
         ((get_sorted_files true m files).get j)) := by
  have hs : List.Sorted (manifestLe m) (get_sorted_files true m files) :=
    List.sorted_insertionSort (manifestLe m) files
  refine ⟨hs, List.perm_insertionSort (manifestLe m) files, ?_, ?_⟩
  · intro i j hij habs p hpres
    have hrel := hs.rel_get_of_lt hij
    simp only [manifestLe, tupleLe, get_page_sort_key] at hrel
    rw [extract_eq_manifestPage, extract_eq_manifestPage, habs, hpres] at hrel
    simp only [Option.getD_none, Option.getD_some] at hrel
    rcases hrel with h | h
    · exact Nat.le_of_lt h
    · exact Nat.le_of_eq h.1
  · intro i j hij habs1 habs2
    have hrel := hs.rel_get_of_lt hij
    simp only [manifestLe, tupleLe, get_page_sort_key] at hrel
    rw [extract_eq_manifestPage, extract_eq_manifestPage, habs1, habs2] at hrel
    simp only [Option.getD_none] at hrel
    rcases hrel with h | h
    · exact absurd h (lt_irrefl _)
    · exact h.2

/-- A concrete manifest: `b` on page 2, `x` listed with the huge page
number `10**9`; `a` and `d` absent. -/
def exManifest : List (String × Nat) := [("b", 2), ("x", SENTINEL)]

/-- The concrete files of the cluster. -/
def exFiles : List String := ["b.txt", "a.txt", "d.txt", "x.txt"]

/-- Witness for C5's amended theorem at a concrete input: the resolved
order is `b.txt` (page 2) then the sentinel-keyed group `a.txt`,
`d.txt`, `x.txt` alphabetically; the absent `a.txt` before absent
`d.txt` instantiates the alphabetical clause, and absent `a.txt`
against present `x.txt` instantiates the page-bound clause. -/
theorem c5_witness :
    get_sorted_files true exManifest exFiles =
      ["b.txt", "a.txt", "d.txt", "x.txt"] ∧
    SENTINEL ≤ SENTINEL ∧
    strLe ((get_sorted_files true exManifest exFiles).get ⟨1, by decide⟩)
      ((get_sorted_files true exManifest exFiles).get ⟨2, by decide⟩) := by
  refine ⟨by decide, ?_, ?_⟩
  · exact (c5_manifest_sort exManifest exFiles).2.2.1 ⟨1, by decide⟩
      ⟨3, by decide⟩ (by decide) (by decide) SENTINEL (by decide)
  · exact (c5_manifest_sort exManifest exFiles).2.2.2 ⟨1, by decide⟩
      ⟨2, by decide⟩ (by decide) (by decide) (by decide)

end HECalls
